import Mathlib

set_option maxRecDepth 100000

/-!
Shallow embedding of transform_logs.py from the analisis-logs-streamlit
repository: the line parsers (extract_json_block, parse_apache_log_line,
parse_log_to_dict), the bot filter (is_bot_user_agent, filter_bots), the
session builder (create_sessions, get_session_stats) and the ingestion
routine (crear_dataframe).  Machine-dependent effects are made explicit:
datetime.now() becomes a DateTime parameter, the file handle becomes an
optional list of lines, and pandas tables become Lean lists of records.
-/

/-! ## Python JSON values and json.loads

json.loads on a candidate string either yields a Python value or raises
JSONDecodeError.  Numbers keep their literal text: the program only looks
at numbers through truthiness and through str(...).isdigit(), and a
non-integral literal (one with a fraction or exponent) is never all
digits in CPython either, so the literal text is an adequate carrier.
The nonstandard NaN/Infinity constants accepted by CPython are omitted:
no claim involves them. -/
inductive JsonVal where
  | null : JsonVal
  | bool (b : Bool) : JsonVal
  | num (text : String) : JsonVal
  | str (s : String) : JsonVal
  | arr (elems : List JsonVal) : JsonVal
  | obj (fields : List (String × JsonVal)) : JsonVal

/-- JSON insignificant whitespace (RFC 8259, as used by CPython json). -/
def jsonWs (c : Char) : Bool :=
  c == ' ' || c == '\t' || c == '\n' || c == '\r'

def skipJsonWs (cs : List Char) : List Char := cs.dropWhile jsonWs

/-- Value of a hexadecimal digit, for the \uXXXX string escape. -/
def hexVal (c : Char) : Option Nat :=
  if c.isDigit then some (c.toNat - 48)
  else if 'a' ≤ c ∧ c ≤ 'f' then some (c.toNat - 87)
  else if 'A' ≤ c ∧ c ≤ 'F' then some (c.toNat - 55)
  else none

/-- Single-character JSON string escapes. -/
def jsonEscChar (e : Char) : Option Char :=
  if e = '"' then some '"'
  else if e = '\\' then some '\\'
  else if e = '/' then some '/'
  else if e = 'b' then some (Char.ofNat 8)
  else if e = 'f' then some (Char.ofNat 12)
  else if e = 'n' then some '\n'
  else if e = 'r' then some '\r'
  else if e = 't' then some '\t'
  else none

/-- Body of a JSON string after the opening quote: returns the decoded
characters and the remainder after the closing quote.  Raw control
characters are rejected (strict mode, the json.loads default).  A \uXXXX
escape denoting a surrogate code unit is rejected; CPython would keep a
lone surrogate, which a Lean Char cannot carry, and no claim depends on
that corner. -/
def parseJsonStringBody : Nat → List Char → Option (List Char × List Char)
  | 0, _ => none
  | _, [] => none
  | fuel+1, c :: cs =>
    if c = '"' then some ([], cs)
    else if c = '\\' then
      match cs with
      | [] => none
      | 'u' :: h1 :: h2 :: h3 :: h4 :: cs3 =>
        match hexVal h1, hexVal h2, hexVal h3, hexVal h4 with
        | some a, some b, some c3, some d =>
          let n := ((a * 16 + b) * 16 + c3) * 16 + d
          if n < 0xd800 ∨ 0xdfff < n then
            match parseJsonStringBody fuel cs3 with
            | some (s, r) => some (Char.ofNat n :: s, r)
            | none => none
          else none
        | _, _, _, _ => none
      | e :: cs2 =>
        match jsonEscChar e with
        | some ch =>
          match parseJsonStringBody fuel cs2 with
          | some (s, r) => some (ch :: s, r)
          | none => none
        | none => none
    else if c.toNat < 32 then none
    else
      match parseJsonStringBody fuel cs with
      | some (s, r) => some (c :: s, r)
      | none => none

def spanDigits (cs : List Char) : List Char × List Char :=
  (cs.takeWhile Char.isDigit, cs.dropWhile Char.isDigit)

/-- Optional fraction and exponent of a JSON number literal, max-munch as
in the CPython NUMBER_RE regex: a fraction or exponent lacking digits is
simply not consumed. -/
def parseNumTail (cs : List Char) : List Char × List Char :=
  let fr : List Char × List Char :=
    match cs with
    | '.' :: r =>
      match spanDigits r with
      | ([], _) => ([], cs)
      | (ds, r2) => ('.' :: ds, r2)
    | _ => ([], cs)
  let ex : List Char × List Char :=
    match fr.2 with
    | e :: r =>
      if e = 'e' ∨ e = 'E' then
        match r with
        | s :: r2 =>
          if s = '+' ∨ s = '-' then
            match spanDigits r2 with
            | ([], _) => ([], fr.2)
            | (ds, r3) => (e :: s :: ds, r3)
          else
            match spanDigits r with
            | ([], _) => ([], fr.2)
            | (ds, r3) => (e :: ds, r3)
        | [] => ([], fr.2)
      else ([], fr.2)
    | [] => ([], fr.2)
  (fr.1 ++ ex.1, ex.2)

/-- A JSON number literal: -?(0|[1-9][0-9]*)(.[0-9]+)?([eE][+-]?[0-9]+)?,
returned as its text plus the remainder. -/
def parseJsonNumber (cs : List Char) : Option (List Char × List Char) :=
  let sign : List Char × List Char :=
    match cs with
    | '-' :: r => (['-'], r)
    | r => ([], r)
  match sign.2 with
  | c :: rest =>
    if c = '0' then
      let tail := parseNumTail rest
      some (sign.1 ++ '0' :: tail.1, tail.2)
    else if c.isDigit then
      let ds := spanDigits rest
      let tail := parseNumTail ds.2
      some (sign.1 ++ c :: (ds.1 ++ tail.1), tail.2)
    else none
  | [] => none

mutual

/-- One JSON value, fuel-indexed (the fuel passed by pyJsonLoads always
suffices).  Mirrors the CPython scanner: whitespace, then a string,
object, array, literal or number. -/
def parseJsonValue : Nat → List Char → Option (JsonVal × List Char)
  | 0, _ => none
  | fuel+1, cs =>
    match skipJsonWs cs with
    | [] => none
    | c :: rest =>
      if c = '"' then
        match parseJsonStringBody (rest.length + 1) rest with
        | some (s, r) => some (JsonVal.str (String.mk s), r)
        | none => none
      else if c = '\x7b' then parseJsonObj fuel rest
      else if c = '[' then parseJsonArr fuel rest
      else if c = 't' then
        match rest with
        | 'r' :: 'u' :: 'e' :: r => some (JsonVal.bool true, r)
        | _ => none
      else if c = 'f' then
        match rest with
        | 'a' :: 'l' :: 's' :: 'e' :: r => some (JsonVal.bool false, r)
        | _ => none
      else if c = 'n' then
        match rest with
        | 'u' :: 'l' :: 'l' :: r => some (JsonVal.null, r)
        | _ => none
      else if c = '-' ∨ c.isDigit then
        match parseJsonNumber (c :: rest) with
        | some (t, r) => some (JsonVal.num (String.mk t), r)
        | none => none
      else none

/-- Object members after the opening brace (which may be immediately
closed). -/
def parseJsonObj : Nat → List Char → Option (JsonVal × List Char)
  | 0, _ => none
  | fuel+1, cs =>
    match skipJsonWs cs with
    | '\x7d' :: rest => some (JsonVal.obj [], rest)
    | _ =>
      match parseJsonMembers fuel cs with
      | some (ms, r) => some (JsonVal.obj ms, r)
      | none => none

/-- A nonempty comma-separated list of string-keyed members, then the
closing brace. -/
def parseJsonMembers : Nat → List Char → Option (List (String × JsonVal) × List Char)
  | 0, _ => none
  | fuel+1, cs =>
    match skipJsonWs cs with
    | '"' :: rest =>
      match parseJsonStringBody (rest.length + 1) rest with
      | none => none
      | some (key, cs2) =>
        match skipJsonWs cs2 with
        | ':' :: cs3 =>
          match parseJsonValue fuel cs3 with
          | none => none
          | some (v, cs4) =>
            match skipJsonWs cs4 with
            | ',' :: cs5 =>
              match parseJsonMembers fuel cs5 with
              | some (ms, cs6) => some ((String.mk key, v) :: ms, cs6)
              | none => none
            | '\x7d' :: cs5 => some ([(String.mk key, v)], cs5)
            | _ => none
        | _ => none
    | _ => none

/-- Array elements after the opening bracket. -/
def parseJsonArr : Nat → List Char → Option (JsonVal × List Char)
  | 0, _ => none
  | fuel+1, cs =>
    match skipJsonWs cs with
    | ']' :: rest => some (JsonVal.arr [], rest)
    | _ =>
      match parseJsonElems fuel cs with
      | some (es, r) => some (JsonVal.arr es, r)
      | none => none

/-- A nonempty comma-separated list of array elements, then the closing
bracket. -/
def parseJsonElems : Nat → List Char → Option (List JsonVal × List Char)
  | 0, _ => none
  | fuel+1, cs =>
    match parseJsonValue fuel cs with
    | none => none
    | some (v, cs2) =>
      match skipJsonWs cs2 with
      | ',' :: cs3 =>
        match parseJsonElems fuel cs3 with
        | some (es, cs4) => some (v :: es, cs4)
        | none => none
      | ']' :: cs3 => some ([v], cs3)
      | _ => none

end

/-- Embedding of json.loads: a single JSON document, with surrounding
whitespace allowed and anything after it rejected (Extra data). -/
def pyJsonLoads (s : String) : Option JsonVal :=
  match parseJsonValue (2 * s.data.length + 8) s.data with
  | some (v, rest) => if skipJsonWs rest = [] then some v else none
  | none => none

/-- Python str.strip() whitespace (ASCII model: the log lines involved in
the claims are ASCII). -/
def pySpace (c : Char) : Bool :=
  c == ' ' || c == '\t' || c == '\n' || c == '\r' || c == '\x0b' || c == '\x0c'

def pyStripChars (cs : List Char) : List Char :=
  ((cs.dropWhile pySpace).reverse.dropWhile pySpace).reverse

def pyStrip (s : String) : String := String.mk (pyStripChars s.data)

/-- Embedding of extract_json_block: scan the occurrences of the opening
brace left to right; at each one, json.loads the stripped suffix; first
success wins, otherwise None. -/
def extract_json_block_go : List Char → Option JsonVal
  | [] => none
  | c :: cs =>
    if c = '\x7b' then
      match pyJsonLoads (String.mk (pyStripChars (c :: cs))) with
      | some v => some v
      | none => extract_json_block_go cs
    else extract_json_block_go cs

def extract_json_block (line : String) : Option JsonVal :=
  extract_json_block_go line.data

/-! ## Python value helpers used by the parsers -/

/-- Truthiness of the mantissa of a numeric literal being zero
(0, -0, 0.00, 0e5 are all falsy in Python). -/
def numIsZero (t : String) : Bool :=
  let cs := match t.data with
    | '-' :: r => r
    | r => r
  (cs.takeWhile (fun c => !(c == 'e') && !(c == 'E'))).all
    (fun c => c == '0' || c == '.')

/-- Python truthiness of a decoded JSON value. -/
def pyTruthy : JsonVal → Bool
  | .null => false
  | .bool b => b
  | .num t => ! numIsZero t
  | .str s => ! (s == "")
  | .arr l => ! l.isEmpty
  | .obj l => ! l.isEmpty

/-- dict.get(k): the binding json.loads keeps for a duplicated key is the
last one in the document. -/
def dictGet (fields : List (String × JsonVal)) (k : String) : Option JsonVal :=
  match fields with
  | [] => none
  | (k2, v) :: rest =>
    match dictGet rest k with
    | some v2 => some v2
    | none => if k2 = k then some v else none

/-- dict.get(k, default). -/
def dictGetD (fields : List (String × JsonVal)) (k : String) (d : JsonVal) : JsonVal :=
  (dictGet fields k).getD d

def isIntLiteral (t : String) : Bool :=
  t.data.all (fun c => c.isDigit || c == '-')

/-- str(v) for the decoded values, used only through .isdigit(): integral
numbers render their decimal value (with -0 collapsing to 0, as int()
does); any other value renders to a string containing a non-digit
character, which is all the program observes of it. -/
def pyStr : JsonVal → String
  | .str s => s
  | .num t => if isIntLiteral t then (if numIsZero t then "0" else t) else t
  | .bool b => if b then "True" else "False"
  | .null => "None"
  | .arr _ => "[...]"
  | .obj _ => "\x7b...\x7d"

/-- str.isdigit() (ASCII model). -/
def pyIsdigit (s : String) : Bool :=
  ! s.data.isEmpty && s.data.all Char.isDigit

/-- int() applied to an all-digits string, the only shape the source
applies it to (guarded by isdigit). -/
def digitsToNat (cs : List Char) : Nat :=
  cs.foldl (fun n c => 10 * n + (c.toNat - 48)) 0

def pyIntOfDigits (s : String) : Nat := digitsToNat s.data

/-! ## Timestamps and strptime

datetime.strptime compiles a format to a regex (with IGNORECASE), matches
the whole data string, then builds the datetime, which rejects impossible
calendar dates and out-of-range offsets; every failure surfaces as
ValueError.  For the four fixed formats of this program the field classes
in that regex exclude the literal delimiter that follows them, so the
backtracking match coincides with the deterministic max-munch parsers
below; failures of the final datetime construction are folded into the
parser returning none, which is observationally the same ValueError. -/

structure DateTime where
  year : Nat
  month : Nat
  day : Nat
  hour : Nat
  minute : Nat
  second : Nat
  /-- UTC offset in seconds when the format carried %z, else none. -/
  tzoff : Option Int

def digitVal (c : Char) : Option Nat :=
  if c.isDigit then some (c.toNat - 48) else none

/-- A numeric strptime field matching two digits when valid2 holds of the
value, else one digit when valid1 holds: the shape of the %d, %H, %M, %S
and %m regex alternations (two-digit alternatives first). -/
def parse2or1 (valid2 valid1 : Nat → Bool) :
    List Char → Option (Nat × List Char)
  | c1 :: c2 :: rest =>
    match digitVal c1, digitVal c2 with
    | some d1, some d2 =>
      if valid2 (10 * d1 + d2) then some (10 * d1 + d2, rest)
      else if valid1 d1 then some (d1, c2 :: rest) else none
    | some d1, none => if valid1 d1 then some (d1, c2 :: rest) else none
    | none, _ => none
  | [c1] =>
    match digitVal c1 with
    | some d1 => if valid1 d1 then some (d1, []) else none
    | none => none
  | [] => none

/-- %d: (3[01]|[12][0-9]|0[1-9]|[1-9]), that is 1..31. -/
def parseDay : List Char → Option (Nat × List Char) :=
  parse2or1 (fun v => 1 ≤ v && v ≤ 31) (fun v => 1 ≤ v)

/-- %m: (1[0-2]|0[1-9]|[1-9]), that is 1..12. -/
def parseMonthNum : List Char → Option (Nat × List Char) :=
  parse2or1 (fun v => 1 ≤ v && v ≤ 12) (fun v => 1 ≤ v)

/-- %H: (2[0-3]|[01][0-9]|[0-9]), that is 0..23. -/
def parseHour : List Char → Option (Nat × List Char) :=
  parse2or1 (fun v => v ≤ 23) (fun _ => true)

/-- %M: ([0-5][0-9]|[0-9]). -/
def parseMinute : List Char → Option (Nat × List Char) :=
  parse2or1 (fun v => v ≤ 59) (fun _ => true)

/-- %S: (6[01]|[0-5][0-9]|[0-9]); the leap seconds 60 and 61 pass the
regex but are rejected by the datetime constructor, which is the same
observable failure as a two-digit value not matching here. -/
def parseSecond : List Char → Option (Nat × List Char) :=
  parse2or1 (fun v => v ≤ 59) (fun _ => true)

/-- %Y: exactly four digits; year 0000 is rejected by the datetime
constructor (MINYEAR is 1). -/
def parseYear4 : List Char → Option (Nat × List Char)
  | c1 :: c2 :: c3 :: c4 :: rest =>
    match digitVal c1, digitVal c2, digitVal c3, digitVal c4 with
    | some d1, some d2, some d3, some d4 =>
      let v := ((d1 * 10 + d2) * 10 + d3) * 10 + d4
      if 1 ≤ v then some (v, rest) else none
    | _, _, _, _ => none
  | _ => none

def monthAbbrevs : List String :=
  ["jan", "feb", "mar", "apr", "may", "jun",
   "jul", "aug", "sep", "oct", "nov", "dec"]

/-- %b: a three-letter month abbreviation, case-insensitive (the C
locale names, IGNORECASE regex). -/
def parseMonthName : List Char → Option (Nat × List Char)
  | c1 :: c2 :: c3 :: rest =>
    let w := String.mk [c1.toLower, c2.toLower, c3.toLower]
    match monthAbbrevs.findIdx? (fun m => m = w) with
    | some i => some (i + 1, rest)
    | none => none
  | _ => none

def litChar (c : Char) : List Char → Option (List Char)
  | c2 :: rest => if c2 = c then some rest else none
  | [] => none

/-- A whitespace character of the regex \s (ASCII model). -/
def reSpace (c : Char) : Bool :=
  c == ' ' || c == '\t' || c == '\n' || c == '\r' || c == '\x0b' || c == '\x0c'

/-- One-or-more whitespace, the translation strptime applies to a literal
space in the format. -/
def skipSpace1 : List Char → Option (List Char)
  | c :: rest => if reSpace c then some (rest.dropWhile reSpace) else none
  | [] => none

/-- %z: Z, or a sign, two hour digits, optional colon, minute, and an
optional seconds group; returns the offset in seconds.  The sub-second
fraction the regex tolerates is accepted and discarded (no claim reaches
it).  The timezone constructor requires the magnitude to stay below one
day. -/
def parseTz (cs : List Char) : Option (Int × List Char) :=
  match cs with
  | 'Z' :: rest => some (0, rest)
  | s :: c1 :: c2 :: rest =>
    if s = '+' ∨ s = '-' then
      match digitVal c1, digitVal c2 with
      | some d1, some d2 =>
        let hh := 10 * d1 + d2
        let afterColon := match rest with
          | ':' :: r => r
          | r => r
        match afterColon with
        | m1 :: m2 :: rest2 =>
          match digitVal m1, digitVal m2 with
          | some e1, some e2 =>
            if e1 ≤ 5 then
              let mm := 10 * e1 + e2
              let secPart : Nat × List Char :=
                let afterColon2 := match rest2 with
                  | ':' :: r => r
                  | r => r
                match afterColon2 with
                | s1 :: s2 :: rest3 =>
                  match digitVal s1, digitVal s2 with
                  | some f1, some f2 =>
                    if f1 ≤ 5 then
                      let frac : List Char :=
                        match rest3 with
                        | '.' :: r =>
                          let ds := r.takeWhile Char.isDigit
                          if ds.length = 0 ∨ 6 < ds.length then []
                          else '.' :: ds
                        | _ => []
                      match frac with
                      | [] =>
                        match rest3 with
                        | '.' :: _ => (0, rest2)
                        | r => (10 * f1 + f2, r)
                      | _ :: _ => (10 * f1 + f2, rest3.drop frac.length)
                    else (0, rest2)
                  | _, _ => (0, rest2)
                | _ => (0, rest2)
              let total : Nat := hh * 3600 + mm * 60 + secPart.1
              if total < 86400 then
                some (if s = '-' then -(total : Int) else (total : Int),
                      secPart.2)
              else none
            else none
          | _, _ => none
        | _ => none
      | _, _ => none
    else none
  | _ => none

def isLeapYear (y : Nat) : Bool :=
  y % 4 = 0 && (y % 100 ≠ 0 || y % 400 = 0)

def daysInMonth (y m : Nat) : Nat :=
  if m = 2 then (if isLeapYear y then 29 else 28)
  else if m = 4 ∨ m = 6 ∨ m = 9 ∨ m = 11 then 30
  else 31

/-- The datetime constructor validation of the parsed calendar fields. -/
def mkDateTime (y mo d h mi s : Nat) (tz : Option Int) : Option DateTime :=
  if d ≤ daysInMonth y mo then some ⟨y, mo, d, h, mi, s, tz⟩ else none

/-- strptime with format day/Mon/Year:H:M:S offset
("%d/%b/%Y:%H:%M:%S %z"). -/
def strptime_dbY_HMS_z (str0 : String) : Option DateTime :=
  match parseDay str0.data with
  | none => none
  | some (d, r1) =>
    match litChar '/' r1 with
    | none => none
    | some r2 =>
      match parseMonthName r2 with
      | none => none
      | some (mo, r3) =>
        match litChar '/' r3 with
        | none => none
        | some r4 =>
          match parseYear4 r4 with
          | none => none
          | some (y, r5) =>
            match litChar ':' r5 with
            | none => none
            | some r6 =>
              match parseHour r6 with
              | none => none
              | some (h, r7) =>
                match litChar ':' r7 with
                | none => none
                | some r8 =>
                  match parseMinute r8 with
                  | none => none
                  | some (mi, r9) =>
                    match litChar ':' r9 with
                    | none => none
                    | some r10 =>
                      match parseSecond r10 with
                      | none => none
                      | some (s, r11) =>
                        match skipSpace1 r11 with
                        | none => none
                        | some r12 =>
                          match parseTz r12 with
                          | none => none
                          | some (off, r13) =>
                            if r13 = [] then
                              mkDateTime y mo d h mi s (some off)
                            else none

/-- Shared date-and-clock tail for the offset-free formats: H:M:S
followed by end of input. -/
def parseHMSEnd (cs : List Char) : Option (Nat × Nat × Nat) :=
  match parseHour cs with
  | none => none
  | some (h, r1) =>
    match litChar ':' r1 with
    | none => none
    | some r2 =>
      match parseMinute r2 with
      | none => none
      | some (mi, r3) =>
        match litChar ':' r3 with
        | none => none
        | some r4 =>
          match parseSecond r4 with
          | none => none
          | some (s, r5) => if r5 = [] then some (h, mi, s) else none

/-- strptime with format day/Mon/Year:H:M:S ("%d/%b/%Y:%H:%M:%S"). -/
def strptime_dbY_HMS (str0 : String) : Option DateTime :=
  match parseDay str0.data with
  | none => none
  | some (d, r1) =>
    match litChar '/' r1 with
    | none => none
    | some r2 =>
      match parseMonthName r2 with
      | none => none
      | some (mo, r3) =>
        match litChar '/' r3 with
        | none => none
        | some r4 =>
          match parseYear4 r4 with
          | none => none
          | some (y, r5) =>
            match litChar ':' r5 with
            | none => none
            | some r6 =>
              match parseHMSEnd r6 with
              | none => none
              | some (h, mi, s) => mkDateTime y mo d h mi s none

/-- strptime with format Year-Month-Day H:M:S ("%Y-%m-%d %H:%M:%S"). -/
def strptime_Ymd_HMS (str0 : String) : Option DateTime :=
  match parseYear4 str0.data with
  | none => none
  | some (y, r1) =>
    match litChar '-' r1 with
    | none => none
    | some r2 =>
      match parseMonthNum r2 with
      | none => none
      | some (mo, r3) =>
        match litChar '-' r3 with
        | none => none
        | some r4 =>
          match parseDay r4 with
          | none => none
          | some (d, r5) =>
            match skipSpace1 r5 with
            | none => none
            | some r6 =>
              match parseHMSEnd r6 with
              | none => none
              | some (h, mi, s) => mkDateTime y mo d h mi s none

/-- strptime with format Year-Month-DayTH:M:S ("%Y-%m-%dT%H:%M:%S"). -/
def strptime_YmdT_HMS (str0 : String) : Option DateTime :=
  match parseYear4 str0.data with
  | none => none
  | some (y, r1) =>
    match litChar '-' r1 with
    | none => none
    | some r2 =>
      match parseMonthNum r2 with
      | none => none
      | some (mo, r3) =>
        match litChar '-' r3 with
        | none => none
        | some r4 =>
          match parseDay r4 with
          | none => none
          | some (d, r5) =>
            match litChar 'T' r5 with
            | none => none
            | some r6 =>
              match parseHMSEnd r6 with
              | none => none
              | some (h, mi, s) => mkDateTime y mo d h mi s none

/-! ## The Apache/Nginx combined-log matcher

re.match anchors at the start only; text after the pattern is allowed.
In both source patterns every variable-width piece (a \S+ token, the
bracketed [^\]]+ field, a quoted [^\x22]* field) excludes the literal
delimiter that follows it, so the backtracking regex match is equivalent
to the deterministic max-munch parse implemented here, and the simple
pattern is literally a prefix of the extended one: a line where the
extended pattern fails only past the size field yields exactly the
five-group match, with referer and user agent defaulting to "-". -/

structure ApacheGroups where
  ip : String
  ts : String
  request : String
  status : String
  size : String
  referer : String
  user_agent : String

/-- One \S+ token, max-munch, at least one character. -/
def takeTok (cs : List Char) : Option (List Char × List Char) :=
  let t := cs.takeWhile (fun c => ! reSpace c)
  if t.isEmpty then none else some (t, cs.drop t.length)

/-- Max-munch of characters other than stop, with the remainder. -/
def takeNotChar (stop : Char) (cs : List Char) : List Char × List Char :=
  (cs.takeWhile (fun c => !(c == stop)), cs.dropWhile (fun c => !(c == stop)))

/-- The extended tail: a space, quoted referer, space, quoted user
agent. -/
def apacheTail (cs : List Char) : Option (String × String) :=
  match litChar ' ' cs with
  | none => none
  | some r1 =>
    match litChar '"' r1 with
    | none => none
    | some r2 =>
      let ref := takeNotChar '"' r2
      match litChar '"' ref.2 with
      | none => none
      | some r3 =>
        match litChar ' ' r3 with
        | none => none
        | some r4 =>
          match litChar '"' r4 with
          | none => none
          | some r5 =>
            let ua := takeNotChar '"' r5
            match litChar '"' ua.2 with
            | none => none
            | some _ => some (String.mk ref.1, String.mk ua.1)

/-- Both regex patterns of parse_apache_log_line applied to the stripped
line: ip, two skipped tokens, bracketed timestamp, quoted request,
status and size tokens, then optionally the quoted referer and user
agent. -/
def apacheMatch (cs : List Char) : Option ApacheGroups :=
  match takeTok cs with
  | none => none
  | some (ipT, r1) =>
    match litChar ' ' r1 with
    | none => none
    | some r2 =>
      match takeTok r2 with
      | none => none
      | some (_, r3) =>
        match litChar ' ' r3 with
        | none => none
        | some r4 =>
          match takeTok r4 with
          | none => none
          | some (_, r5) =>
            match litChar ' ' r5 with
            | none => none
            | some r6 =>
              match litChar '[' r6 with
              | none => none
              | some r7 =>
                let br := takeNotChar ']' r7
                if br.1.isEmpty then none
                else
                  match litChar ']' br.2 with
                  | none => none
                  | some r8 =>
                    match litChar ' ' r8 with
                    | none => none
                    | some r9 =>
                      match litChar '"' r9 with
                      | none => none
                      | some r10 =>
                        let req := takeNotChar '"' r10
                        match litChar '"' req.2 with
                        | none => none
                        | some r11 =>
                          match litChar ' ' r11 with
                          | none => none
                          | some r12 =>
                            match takeTok r12 with
                            | none => none
                            | some (stT, r13) =>
                              match litChar ' ' r13 with
                              | none => none
                              | some r14 =>
                                match takeTok r14 with
                                | none => none
                                | some (szT, r15) =>
                                  let base : ApacheGroups :=
                                    { ip := String.mk ipT
                                      ts := String.mk br.1
                                      request := String.mk req.1
                                      status := String.mk stT
                                      size := String.mk szT
                                      referer := "-"
                                      user_agent := "-" }
                                  match apacheTail r15 with
                                  | some (ref, ua) =>
                                    some { base with referer := ref, user_agent := ua }
                                  | none => some base

/-! ## Records and the two line parsers -/

/-- A normalized record, one dictionary produced per parsed line.  The
date and time entries of the Python dict are projections of timestamp
and are not duplicated here.  String-valued entries are carried as
JsonVal because the JSON path stores whatever decoded value the document
held. -/
structure LogRecord where
  timestamp : DateTime
  ip : JsonVal
  method : JsonVal
  path : JsonVal
  version : JsonVal
  status_code : Nat
  size : Nat
  referer : JsonVal
  user_agent : JsonVal
  raw_line : String

/-- First whitespace-separated token of a string: the value of
s.split()[0] when the split is nonempty; none models the IndexError the
subscript raises on an all-whitespace string. -/
def firstToken (s : String) : Option String :=
  let t := (s.data.dropWhile reSpace).takeWhile (fun c => ! reSpace c)
  if t.isEmpty then none else some (String.mk t)

/-- The timestamp handling of parse_apache_log_line: the offset format,
then the offset-free format on the first whitespace token, then the
current wall clock.  Only ValueError is caught, so the IndexError of
split()[0] on an all-whitespace field propagates to the outer handler
and fails the whole line. -/
def parseApacheTimestamp (now : DateTime) (ts : String) : Option DateTime :=
  match strptime_dbY_HMS_z ts with
  | some dt => some dt
  | none =>
    match firstToken ts with
    | none => none
    | some tok => some ((strptime_dbY_HMS tok).getD now)

/-- str.split() with no separator (ASCII whitespace model). -/
def splitWsAux : List Char → List Char → List String
  | [], acc => if acc.isEmpty then [] else [String.mk acc.reverse]
  | c :: cs, acc =>
    if reSpace c then
      if acc.isEmpty then splitWsAux cs []
      else String.mk acc.reverse :: splitWsAux cs []
    else splitWsAux cs (c :: acc)

def pySplitWs (s : String) : List String := splitWsAux s.data []

/-- int(s) if s != "-" and s.isdigit() else 0, as applied to the status
and size groups. -/
def apacheNumVal (s : String) : Nat :=
  if s ≠ "-" ∧ pyIsdigit s then pyIntOfDigits s else 0

/-- Embedding of parse_apache_log_line.  The guard the source puts
around request.split() is redundant: splitting the empty string yields
the empty list and the same "-" defaults. -/
def parse_apache_log_line (now : DateTime) (line : String) : Option LogRecord :=
  match apacheMatch (pyStrip line).data with
  | none => none
  | some g =>
    match parseApacheTimestamp now g.ts with
    | none => none
    | some dt =>
      let parts := pySplitWs g.request
      some
        { timestamp := dt
          ip := .str g.ip
          method := .str (parts.getD 0 "-")
          path := .str (parts.getD 1 "-")
          version := .str (parts.getD 2 "-")
          status_code := apacheNumVal g.status
          size := apacheNumVal g.size
          referer := if g.referer ≠ "-" then .str g.referer else .null
          user_agent := if g.user_agent ≠ "-" then .str g.user_agent else .null
          raw_line := pyStrip line }

/-- The status_code and size entries of the JSON path:
int(d.get(k1, d.get(k2, 0))) if str(d.get(k1, d.get(k2, ""))).isdigit()
else 0.  When the guard holds the retrieved value is a digits-only
rendering, so int() is total on it. -/
def jsonNumField (fields : List (String × JsonVal)) (k1 k2 : String) : Nat :=
  if pyIsdigit (pyStr (dictGetD fields k1 (dictGetD fields k2 (.str "")))) then
    pyIntOfDigits (pyStr (dictGetD fields k1 (dictGetD fields k2 (.num "0"))))
  else 0

/-- The JSON branch of parse_log_to_dict, entered for a truthy decoded
object.  A falsy time value returns None outright; a truthy non-string
time raises TypeError in strptime, which the per-format except
ValueError does not catch, so the outer handler returns None; a truthy
string tries the four formats in order and falls back to the current
wall clock when none matches. -/
def parse_json_record (now : DateTime) (fields : List (String × JsonVal))
    (raw_line : String) : Option LogRecord :=
  let time_val := dictGetD fields "time" (.str "")
  if ! pyTruthy time_val then none
  else
    match time_val with
    | .str time_str =>
      let dt :=
        match strptime_dbY_HMS_z time_str with
        | some d => some d
        | none =>
          match strptime_dbY_HMS time_str with
          | some d => some d
          | none =>
            match strptime_Ymd_HMS time_str with
            | some d => some d
            | none => strptime_YmdT_HMS time_str
      some
        { timestamp := dt.getD now
          ip := dictGetD fields "forwardedfor" (dictGetD fields "remote_addr" (.str "-"))
          method := dictGetD fields "method" (.str "-")
          path := dictGetD fields "path" (dictGetD fields "request" (.str "-"))
          version := dictGetD fields "version" (.str "-")
          status_code := jsonNumField fields "code" "status"
          size := jsonNumField fields "size" "bytes"
          referer := dictGetD fields "referer" (.str "-")
          user_agent := dictGetD fields "agent" (dictGetD fields "user_agent" (.str "-"))
          raw_line := pyStrip raw_line }
    | _ => none

/-- Embedding of parse_log_to_dict: JSON first; a truthy decoded value
enters the JSON branch and its result is final; a falsy decoded value
(or no decodable JSON at all) falls through to the Apache parser.  A
truthy decoded non-dict would raise AttributeError at .get and also
yield None; it cannot actually arise, since every candidate handed to
json.loads starts with an opening brace. -/
def parse_log_to_dict (now : DateTime) (raw_line : String) : Option LogRecord :=
  match extract_json_block raw_line with
  | some j =>
    if pyTruthy j then
      match j with
      | .obj fields => parse_json_record now fields raw_line
      | _ => none
    else parse_apache_log_line now raw_line
  | none => parse_apache_log_line now raw_line

/-! ## Bot detection and filtering -/

def bot_patterns : List String :=
  ["googlebot", "bingbot", "slurp", "duckduckbot", "baiduspider",
   "yandexbot", "facebookexternalhit", "twitterbot", "linkedinbot",
   "whatsapp", "telegram", "crawler", "spider", "scraper",
   "bot", "crawl", "fetch", "monitor", "check", "test",
   "pingdom", "uptime", "robot", "wget", "curl",
   "python-requests", "scrapy", "selenium", "phantomjs",
   "headless", "apache-httpclient", "java/", "go-http-client"]

def pyLower (s : String) : String := String.mk (s.data.map Char.toLower)

/-- Python substring membership: pat in s. -/
def strContains (pat s : String) : Bool :=
  s.data.tails.any (fun t => pat.data.isPrefixOf t)

/-- Embedding of is_bot_user_agent: falsy values and the "-" sentinel are
never bots; otherwise the lowercased str() rendering is scanned for the
patterns.  A non-string user agent renders through the opaque pyStr; no
claim exercises the bot check on a non-string value. -/
def is_bot_user_agent (user_agent : JsonVal) : Bool :=
  if ! pyTruthy user_agent then false
  else
    match user_agent with
    | .str s =>
      if s = "-" then false
      else bot_patterns.any (fun p => strContains p (pyLower s))
    | v => bot_patterns.any (fun p => strContains p (pyLower (pyStr v)))

/-- Embedding of filter_bots.  The user_agent column always exists on
records produced by the parsers, so the column-presence conjunct of the
source condition reduces to exclude_bots. -/
def filter_bots (df : List LogRecord) (exclude_bots : Bool) :
    List LogRecord × Nat :=
  if exclude_bots then
    (df.filter (fun r => ! is_bot_user_agent r.user_agent),
     (df.filter (fun r => is_bot_user_agent r.user_agent)).length)
  else (df, 0)

/-! ## Session building

create_sessions reads exactly two columns of the table: ip and
timestamp.  SRow models one row through those two columns, with the
timestamp as an integer number of seconds (a pandas timestamp is an
integer instant; pd.Timedelta(minutes=m) is 60*m of these units).  The
pandas pipeline sort_values([ip, timestamp]) / groupby(ip).diff() /
boolean cumsum per ip is embedded as a stable insertion sort followed by
a left-to-right pass holding, per ip, the previous timestamp and the
running session counter - exactly the information diff and cumsum carry,
with groupby semantics (keyed by ip, independent of adjacency). -/

structure SRow where
  ip : String
  timestamp : Int
deriving DecidableEq

/-- Lexicographic comparison of character lists by code point: the
order Python string comparison uses, hence the order the pandas sort
applies to the ip column (also for the category dtype, whose categories
are lexicographically sorted). -/
def charListLt : List Char → List Char → Bool
  | [], [] => false
  | [], _ :: _ => true
  | _ :: _, [] => false
  | a :: as, b :: bs =>
    if a.toNat < b.toNat then true
    else if b.toNat < a.toNat then false
    else charListLt as bs

theorem charListLt_trichotomy (as : List Char) : ∀ bs : List Char,
    charListLt as bs = true ∨ as = bs ∨ charListLt bs as = true := by
  induction as with
  | nil =>
    intro bs
    cases bs with
    | nil => exact Or.inr (Or.inl rfl)
    | cons b bs2 => exact Or.inl rfl
  | cons a as2 ih =>
    intro bs
    cases bs with
    | nil => exact Or.inr (Or.inr rfl)
    | cons b bs2 =>
      rcases Nat.lt_trichotomy a.toNat b.toNat with h | h | h
      · left
        simp [charListLt, h]
      · have hab : a = b := by
          have h2 := congrArg Char.ofNat h
          rwa [Char.ofNat_toNat, Char.ofNat_toNat] at h2
        subst hab
        rcases ih bs2 with h2 | h2 | h2
        · left
          simp [charListLt, h2]
        · exact Or.inr (Or.inl (by rw [h2]))
        · right; right
          simp [charListLt, h2]
      · right; right
        simp [charListLt, h]

theorem charListLt_trans (as : List Char) : ∀ bs cs : List Char,
    charListLt as bs = true → charListLt bs cs = true →
      charListLt as cs = true := by
  induction as with
  | nil =>
    intro bs cs h1 h2
    cases bs with
    | nil => exact absurd h1 (by simp [charListLt])
    | cons b bs2 =>
      cases cs with
      | nil => exact absurd h2 (by simp [charListLt])
      | cons c cs2 => rfl
  | cons a as2 ih =>
    intro bs cs h1 h2
    cases bs with
    | nil => exact absurd h1 (by simp [charListLt])
    | cons b bs2 =>
      cases cs with
      | nil => exact absurd h2 (by simp [charListLt])
      | cons c cs2 =>
        simp only [charListLt] at h1 h2 ⊢
        by_cases hab : a.toNat < b.toNat
        · by_cases hbc : b.toNat < c.toNat
          · simp [Nat.lt_trans hab hbc]
          · by_cases hcb : c.toNat < b.toNat
            · rw [if_neg hbc, if_pos hcb] at h2
              exact absurd h2 (by simp)
            · have hac : a.toNat < c.toNat := by omega
              simp [hac]
        · by_cases hba : b.toNat < a.toNat
          · rw [if_neg hab, if_pos hba] at h1
            exact absurd h1 (by simp)
          · by_cases hbc : b.toNat < c.toNat
            · have hac : a.toNat < c.toNat := by omega
              simp [hac]
            · by_cases hcb : c.toNat < b.toNat
              · rw [if_neg hbc, if_pos hcb] at h2
                exact absurd h2 (by simp)
              · have hac : ¬ a.toNat < c.toNat := by omega
                have hca : ¬ c.toNat < a.toNat := by omega
                rw [if_neg hab, if_neg hba] at h1
                rw [if_neg hbc, if_neg hcb] at h2
                rw [if_neg hac, if_neg hca]
                exact ih bs2 cs2 h1 h2

theorem string_data_inj : ∀ {a b : String}, a.data = b.data → a = b
  | ⟨_⟩, ⟨_⟩, rfl => rfl

/-- The lexicographic order sort_values([ip, timestamp]) sorts by. -/
def sessionLE (a b : SRow) : Prop :=
  charListLt a.ip.data b.ip.data = true ∨
    (a.ip = b.ip ∧ a.timestamp ≤ b.timestamp)

instance : DecidableRel sessionLE := fun a b =>
  inferInstanceAs
    (Decidable (charListLt a.ip.data b.ip.data = true ∨
      (a.ip = b.ip ∧ a.timestamp ≤ b.timestamp)))

instance : IsTotal SRow sessionLE := by
  constructor
  intro a b
  rcases charListLt_trichotomy a.ip.data b.ip.data with h | h | h
  · exact Or.inl (Or.inl h)
  · have hip : a.ip = b.ip := string_data_inj h
    rcases Int.le_total a.timestamp b.timestamp with h2 | h2
    · exact Or.inl (Or.inr ⟨hip, h2⟩)
    · exact Or.inr (Or.inr ⟨hip.symm, h2⟩)
  · exact Or.inr (Or.inl h)

instance : IsTrans SRow sessionLE := by
  constructor
  intro a b c hab hbc
  rcases hab with h1 | ⟨h1, h1t⟩
  · rcases hbc with h2 | ⟨h2, h2t⟩
    · exact Or.inl (charListLt_trans _ _ _ h1 h2)
    · left
      rw [← h2]
      exact h1
  · rcases hbc with h2 | ⟨h2, h2t⟩
    · left
      rw [h1]
      exact h2
    · exact Or.inr ⟨h1.trans h2, le_trans h1t h2t⟩

/-- Decimal digits of a natural number, most significant first, with
explicit fuel (always sufficient as passed by natDigits): the rendering
astype(str) gives the integer session counters. -/
def natDigitsGo : Nat → Nat → List Char
  | 0, _ => []
  | fuel + 1, n =>
    if n < 10 then [Char.ofNat (48 + n)]
    else natDigitsGo fuel (n / 10) ++ [Char.ofNat (48 + n % 10)]

def natDigits (n : Nat) : List Char := natDigitsGo (n + 1) n

def natRepr (n : Nat) : String := String.mk (natDigits n)

/-- Per-ip state of the sessionizing pass: last timestamp seen and the
running counter, an association list keyed by ip. -/
def assocFind (st : List (String × Int × Nat)) (ip : String) :
    Option (Int × Nat) :=
  match st with
  | [] => none
  | p :: rest => if p.1 = ip then some p.2 else assocFind rest ip

def assocUpdate (st : List (String × Int × Nat)) (ip : String)
    (v : Int × Nat) : List (String × Int × Nat) :=
  match st with
  | [] => [(ip, v)]
  | p :: rest =>
    if p.1 = ip then (ip, v) :: rest else p :: assocUpdate rest ip v

/-- The session counter a row receives: the first row of an ip gets 1
(its diff is NaN, so new_session is True and the cumsum starts at 1); a
later row of the same ip increments that ip's counter exactly when its
gap since the previous row of the same ip exceeds the timeout. -/
def nextCounter (timeout : Int) (st : List (String × Int × Nat))
    (r : SRow) : Nat :=
  match assocFind st r.ip with
  | none => 1
  | some (last, k) => if r.timestamp - last > timeout then k + 1 else k

/-- The diff / new-session / cumsum pass over the sorted rows. -/
def sessRun (timeout : Int) :
    List (String × Int × Nat) → List SRow → List (SRow × Nat)
  | _, [] => []
  | st, r :: rs =>
    (r, nextCounter timeout st r) ::
      sessRun timeout
        (assocUpdate st r.ip (r.timestamp, nextCounter timeout st r)) rs

/-- The per-ip state after the pass has consumed a list of rows. -/
def stateAfter (timeout : Int) (st : List (String × Int × Nat)) :
    List SRow → List (String × Int × Nat)
  | [] => st
  | r :: rs =>
    stateAfter timeout
      (assocUpdate st r.ip (r.timestamp, nextCounter timeout st r)) rs

/-- Embedding of create_sessions: on the empty table the input comes
back; otherwise rows are stably sorted by (ip, timestamp), counters are
computed per ip, and session_id is the string ip + "_" + counter. -/
def create_sessions (df : List SRow) (session_timeout_minutes : Int) :
    List (SRow × String) :=
  if df.isEmpty then []
  else
    let df_sorted := List.insertionSort sessionLE df
    let timeout := 60 * session_timeout_minutes
    (sessRun timeout [] df_sorted).map
      (fun p => (p.1, p.1.ip ++ "_" ++ natRepr p.2))

/-- One row of the per-session aggregation of get_session_stats.
session_duration is (session_end - session_start).total_seconds()/60,
exact as a rational. -/
structure SessionStat where
  session_id : String
  session_start : Int
  session_end : Int
  pageviews : Nat
  ip : String
  session_duration : ℚ

def intMin (a b : Int) : Int := if a ≤ b then a else b

def intMax (a b : Int) : Int := if a ≤ b then b else a

def statFor (out : List (SRow × String)) (sid : String) : SessionStat :=
  match (out.filter (fun p => p.2 = sid)).map Prod.fst with
  | [] =>
    { session_id := sid, session_start := 0, session_end := 0,
      pageviews := 0, ip := "", session_duration := 0 }
  | r :: rs =>
    let start := rs.foldl (fun a q => intMin a q.timestamp) r.timestamp
    let stop := rs.foldl (fun a q => intMax a q.timestamp) r.timestamp
    { session_id := sid
      session_start := start
      session_end := stop
      pageviews := (r :: rs).length
      ip := r.ip
      session_duration := ((stop - start : Int) : ℚ) / 60 }

/-- Lexicographic at-most on strings, the order groupby sorts its keys
by. -/
def strLeB (a b : String) : Bool := charListLt a.data b.data || a == b

/-- The session_details table: groupby(session_id) sorts its keys, then
aggregates min/max/count of timestamp and the first ip.  (The date
column first-aggregation and the by-date breakdown read a column SRow
does not model; no claim touches them.) -/
def session_details (out : List (SRow × String)) : List SessionStat :=
  (List.insertionSort (fun a b : String => strLeB a b = true)
      (out.map Prod.snd).dedup).map (statFor out)

structure SessionStatsSummary where
  total_sessions : Nat
  unique_users : Nat
  avg_pageviews_per_session : ℚ
  avg_session_duration_minutes : ℚ
  session_details : List SessionStat

/-- Embedding of get_session_stats (the empty dict of the source on an
empty or unsessionized input becomes the all-zero summary). -/
def get_session_stats (out : List (SRow × String)) : SessionStatsSummary :=
  if out.isEmpty then ⟨0, 0, 0, 0, []⟩
  else
    let det := session_details out
    { total_sessions := det.length
      unique_users := ((det.map SessionStat.ip).dedup).length
      avg_pageviews_per_session :=
        (det.map (fun s => (s.pageviews : ℚ))).sum / det.length
      avg_session_duration_minutes :=
        (det.map SessionStat.session_duration).sum / det.length
      session_details := det }

/-! ## Ingestion

crear_dataframe is modeled over the observable content of the file
handle: none when open() itself raises (IngestionFailure before any
line), or the yielded lines plus a flag telling whether iteration raises
after them.  Console printing, the initial diagnostic pass, the
progress callback, chunk_size batching (extend keeps order) and the
dtype compaction of the resulting frame do not change the returned
(records, error-count) pair and are omitted. -/

/-- The loop guard: if max_lines and line_num >= max_lines.  A falsy
max_lines (None or 0) never stops the loop. -/
def limitHit (max_lines : Option Int) (line_num : Nat) : Bool :=
  match max_lines with
  | none => false
  | some n => if n = 0 then false else decide ((line_num : Int) ≥ n)

structure ProcResult where
  datos : List LogRecord
  errores : Nat
  broke : Bool

def procesarLineas (now : DateTime) (max_lines : Option Int) :
    List String → Nat → List LogRecord → Nat → ProcResult
  | [], _, datos, errores => ⟨datos.reverse, errores, false⟩
  | l :: rest, line_num, datos, errores =>
    if limitHit max_lines line_num then ⟨datos.reverse, errores, true⟩
    else
      match parse_log_to_dict now l with
      | some r =>
        procesarLineas now max_lines rest (line_num + 1) (r :: datos) errores
      | none =>
        procesarLineas now max_lines rest (line_num + 1) datos (errores + 1)

/-- Embedding of crear_dataframe.  An unopenable file raises before the
loop, so the handler returns the empty table with errores still 0; a
read failure mid-iteration (when the loop did not break first) discards
the accumulated records and returns the empty table with the error count
reached so far; otherwise the parsed records and the error count are
returned (the source returns an empty frame instead of pd.DataFrame(datos)
when datos is empty, the same value here). -/
def crear_dataframe (now : DateTime) (file : Option (List String × Bool))
    (max_lines : Option Int) : List LogRecord × Nat :=
  match file with
  | none => ([], 0)
  | some (lines, readErr) =>
    let res := procesarLineas now max_lines lines 0 [] 0
    if readErr && ! res.broke then ([], res.errores)
    else (res.datos, res.errores)

/-! ## Supporting lemmas -/

def digitsVal (cs : List Char) : Nat :=
  cs.foldl (fun a c => 10 * a + (c.toNat - 48)) 0

theorem digitsVal_append_digit (ds : List Char) (c : Char) :
    digitsVal (ds ++ [c]) = 10 * digitsVal ds + (c.toNat - 48) := by
  unfold digitsVal
  rw [List.foldl_append]
  rfl

theorem toNat_digitChar (k : Nat) (hk : k < 10) :
    (Char.ofNat (48 + k)).toNat = 48 + k := by
  interval_cases k <;> decide

theorem digitsVal_natDigitsGo (fuel : Nat) : ∀ n : Nat, n < fuel →
    digitsVal (natDigitsGo fuel n) = n := by
  induction fuel with
  | zero =>
    intro n hn
    omega
  | succ fuel ih =>
    intro n hn
    unfold natDigitsGo
    split
    next h =>
      simp [digitsVal, toNat_digitChar n h]
    next h =>
      rw [digitsVal_append_digit,
        ih (n / 10) (by omega),
        toNat_digitChar (n % 10) (Nat.mod_lt _ (by omega))]
      omega

theorem digitsVal_natDigits (n : Nat) : digitsVal (natDigits n) = n :=
  digitsVal_natDigitsGo (n + 1) n (by omega)

theorem natDigits_inj {m n : Nat} (h : natDigits m = natDigits n) : m = n := by
  have := congrArg digitsVal h
  rwa [digitsVal_natDigits, digitsVal_natDigits] at this

theorem data_append_eq (a b : String) : (a ++ b).data = a.data ++ b.data := rfl

theorem sid_eq_iff (ip : String) (m n : Nat) :
    ip ++ "_" ++ natRepr m = ip ++ "_" ++ natRepr n ↔ m = n := by
  constructor
  · intro h
    have h2 := congrArg String.data h
    rw [data_append_eq, data_append_eq] at h2
    have h3 := List.append_cancel_left h2
    exact natDigits_inj h3
  · rintro rfl
    rfl

theorem assocFind_update_self (st : List (String × Int × Nat)) (ip : String)
    (v : Int × Nat) : assocFind (assocUpdate st ip v) ip = some v := by
  induction st with
  | nil => simp [assocUpdate, assocFind]
  | cons p rest ih =>
    by_cases h : p.1 = ip
    · simp [assocUpdate, assocFind, h]
    · simp [assocUpdate, assocFind, h, ih]

theorem assocFind_update_other (st : List (String × Int × Nat))
    (ip ip2 : String) (v : Int × Nat) (h : ip2 ≠ ip) :
    assocFind (assocUpdate st ip v) ip2 = assocFind st ip2 := by
  have hne : ¬ ip = ip2 := fun he => h he.symm
  induction st with
  | nil => simp [assocUpdate, assocFind, hne]
  | cons p rest ih =>
    by_cases hp : p.1 = ip
    · simp [assocUpdate, assocFind, hp, hne]
    · simp [assocUpdate, assocFind, hp, ih]

theorem sessRun_map_fst (t : Int) (st : List (String × Int × Nat))
    (l : List SRow) : (sessRun t st l).map Prod.fst = l := by
  induction l generalizing st with
  | nil => rfl
  | cons r rs ih => simp [sessRun, ih]

theorem sessRun_length (t : Int) (st : List (String × Int × Nat))
    (l : List SRow) : (sessRun t st l).length = l.length := by
  have := congrArg List.length (sessRun_map_fst t st l)
  simpa using this

theorem sessRun_append (t : Int) (st : List (String × Int × Nat))
    (l1 l2 : List SRow) :
    sessRun t st (l1 ++ l2) =
      sessRun t st l1 ++ sessRun t (stateAfter t st l1) l2 := by
  induction l1 generalizing st with
  | nil => rfl
  | cons r rs ih => simp [sessRun, stateAfter, ih]

theorem stateAfter_find_none (t : Int) (l : List SRow)
    (st : List (String × Int × Nat)) (ip : String)
    (hst : assocFind st ip = none) (hl : ∀ x ∈ l, x.ip ≠ ip) :
    assocFind (stateAfter t st l) ip = none := by
  induction l generalizing st with
  | nil => exact hst
  | cons r rs ih =>
    simp only [stateAfter]
    apply ih
    · rw [assocFind_update_other _ _ _ _
        (fun he => hl r (by simp) he.symm)]
      exact hst
    · intro x hx
      exact hl x (by simp [hx])

theorem procesar_some_zero (now : DateTime) (lines : List String) :
    ∀ (n : Nat) (d : List LogRecord) (e : Nat),
      procesarLineas now (some 0) lines n d e =
        procesarLineas now none lines n d e := by
  induction lines with
  | nil => intro n d e; rfl
  | cons l rest ih =>
    intro n d e
    simp only [procesarLineas, limitHit]
    simp only [if_pos rfl, Bool.false_eq_true, if_false]
    cases parse_log_to_dict now l <;> simp [ih]

theorem procesar_none_broke (now : DateTime) (lines : List String) :
    ∀ (n : Nat) (d : List LogRecord) (e : Nat),
      (procesarLineas now none lines n d e).broke = false := by
  induction lines with
  | nil => intro n d e; rfl
  | cons l rest ih =>
    intro n d e
    simp only [procesarLineas, limitHit, Bool.false_eq_true, if_false]
    cases parse_log_to_dict now l <;> simp [ih]

theorem procesar_none_errores (now : DateTime) (lines : List String) :
    ∀ (n : Nat) (d : List LogRecord) (e : Nat),
      (procesarLineas now none lines n d e).errores =
        e + (lines.filter
              (fun l => (parse_log_to_dict now l).isNone)).length := by
  induction lines with
  | nil => intro n d e; rfl
  | cons l rest ih =>
    intro n d e
    simp only [procesarLineas, limitHit, Bool.false_eq_true, if_false]
    cases hp : parse_log_to_dict now l with
    | some r =>
      rw [ih]
      simp [List.filter, hp]
    | none =>
      rw [ih]
      simp [List.filter, hp]
      omega

/-! ## The claims -/

/-- C8: filter_bots with exclude disabled returns the input table
unchanged, with the same rows in the same order and no column touched,
together with a removed count of 0. -/
theorem C8_filter_disabled (df : List LogRecord) :
    filter_bots df false = (df, 0) := rfl

/-- C10: crear_dataframe with max_lines = 0 behaves like max_lines =
None and processes every line of the file: the guard is the Python
truthiness test "if max_lines and line_num >= max_lines", so 0 never
triggers the prefix cut. -/
theorem C10_zero_limit (now : DateTime)
    (file : Option (List String × Bool)) :
    crear_dataframe now file (some 0) = crear_dataframe now file none := by
  cases file with
  | none => rfl
  | some f =>
    obtain ⟨lines, readErr⟩ := f
    simp only [crear_dataframe]
    rw [procesar_some_zero]

/-- C6 counterexample: an unopenable file (IngestionFailure at open, the
error counter still 0) returns exactly the same value as a successful
run over a readable empty file that parsed zero rows, so the failure is
NOT distinguishable from an empty success, contradicting the claim. -/
theorem C6_counterexample :
    crear_dataframe ⟨2030, 1, 2, 3, 4, 5, none⟩ none none =
      crear_dataframe ⟨2030, 1, 2, 3, 4, 5, none⟩ (some ([], false)) none :=
  rfl

/-- C6 amended: what does hold is the first half of the claim - a read
failure yields the empty table with the error counter frozen at the
point of failure (here: a failure raised after the lines iterated so
far, with no line limit, freezes the counter at the number of lines that
had failed to parse). Distinguishability from a zero-row success fails,
as the counterexample shows. -/
theorem C6_failure_result (now : DateTime) (lines : List String) :
    crear_dataframe now (some (lines, true)) none =
      ([], (lines.filter
             (fun l => (parse_log_to_dict now l).isNone)).length) := by
  simp only [crear_dataframe]
  rw [show ((procesarLineas now none lines 0 [] 0).broke = false) from
        procesar_none_broke now lines 0 [] 0]
  simp only [Bool.not_false, Bool.and_true, if_pos rfl]
  rw [procesar_none_errores now lines 0 [] 0]
  simp

/-- Spec-side reading of a numeric log field (modelled from the claim
wording): the decimal integer value of an all-digits field, 0 when the
field is "-" or otherwise non-numeric. -/
def specFieldValue (s : String) : Nat :=
  if s.data ≠ [] ∧ s.data.all Char.isDigit then digitsToNat s.data else 0

theorem apacheNumVal_eq_spec (s : String) :
    apacheNumVal s = specFieldValue s := by
  unfold apacheNumVal specFieldValue pyIsdigit pyIntOfDigits
  by_cases hall : s.data.all Char.isDigit
  · cases hd : s.data with
    | nil => simp [hd]
    | cons c cs =>
      have hdash : s ≠ "-" := by
        intro he
        rw [he] at hall
        exact absurd hall (by decide)
      simp [hd, hall, hdash]
  · simp [hall]

/-- C2: for every line matching the combined-log pattern that parses to
a record, status_code and size are the decimal values of the status and
size fields, 0 when those fields are "-" or non-numeric; and the
scenario line parses to exactly the stated record (ip 203.0.113.5,
method GET, path /index.html, status 200, size 512). -/
theorem C2_status_size_fields :
    (∀ (now : DateTime) (line : String) (g : ApacheGroups) (r : LogRecord),
        apacheMatch (pyStrip line).data = some g →
        parse_apache_log_line now line = some r →
        r.status_code = specFieldValue g.status ∧
          r.size = specFieldValue g.size) ∧
    (∀ now : DateTime,
        parse_apache_log_line now
            "203.0.113.5 - - [26/May/2025:00:01:08 +0000] \"GET /index.html HTTP/1.1\" 200 512 \"-\" \"Mozilla/5.0\"" =
          some
            { timestamp := ⟨2025, 5, 26, 0, 1, 8, some 0⟩
              ip := .str "203.0.113.5"
              method := .str "GET"
              path := .str "/index.html"
              version := .str "HTTP/1.1"
              status_code := 200
              size := 512
              referer := .null
              user_agent := .str "Mozilla/5.0"
              raw_line := "203.0.113.5 - - [26/May/2025:00:01:08 +0000] \"GET /index.html HTTP/1.1\" 200 512 \"-\" \"Mozilla/5.0\"" }) := by
  constructor
  · intro now line g r h1 h2
    unfold parse_apache_log_line at h2
    rw [h1] at h2
    dsimp only at h2
    cases hts : parseApacheTimestamp now g.ts with
    | none =>
      rw [hts] at h2
      exact Option.noConfusion h2
    | some dt =>
      rw [hts] at h2
      injection h2 with h3
      rw [← h3]
      exact ⟨apacheNumVal_eq_spec g.status, apacheNumVal_eq_spec g.size⟩
  · intro now
    rfl

/-- C2 witness: the general field theorem applied to the scenario line,
with the match hypothesis discharged by computation. -/
theorem C2_status_size_fields_witness :
    (200 : Nat) = specFieldValue "200" ∧ (512 : Nat) = specFieldValue "512" :=
  C2_status_size_fields.1 ⟨2030, 1, 2, 3, 4, 5, none⟩
    "203.0.113.5 - - [26/May/2025:00:01:08 +0000] \"GET /index.html HTTP/1.1\" 200 512 \"-\" \"Mozilla/5.0\""
    ⟨"203.0.113.5", "26/May/2025:00:01:08 +0000", "GET /index.html HTTP/1.1",
      "200", "512", "-", "Mozilla/5.0"⟩ _ rfl
    (C2_status_size_fields.2 ⟨2030, 1, 2, 3, 4, 5, none⟩)

/-- C7 counterexample: this line matches the combined-log pattern (its
bracketed timestamp field is a single space), yet parse_apache_log_line
returns None: the space field fails the offset format, and then
timestamp_str.split()[0] raises IndexError, which the except ValueError
around it does not catch, so the outer handler rejects the line - it
does NOT fall back to the wall clock. -/
theorem C7_counterexample :
    (apacheMatch
        (pyStrip "1.2.3.4 - - [ ] \"GET / HTTP/1.1\" 200 512 \"-\" \"M\"").data).isSome =
        true ∧
      parse_apache_log_line ⟨2030, 1, 2, 3, 4, 5, none⟩
          "1.2.3.4 - - [ ] \"GET / HTTP/1.1\" 200 512 \"-\" \"M\"" = none :=
  ⟨rfl, rfl⟩

/-- C7 amended: for every line matching the pattern whose bracketed
timestamp field contains at least one non-whitespace character, the
parse never fails because of the timestamp: the offset format is tried,
then the offset-free format on the first token, and finally the current
wall clock is substituted. -/
theorem C7_timestamp_leniency (now : DateTime) (line : String)
    (g : ApacheGroups) (h1 : apacheMatch (pyStrip line).data = some g)
    (h2 : (firstToken g.ts).isSome = true) :
    (parse_apache_log_line now line).isSome = true := by
  unfold parse_apache_log_line
  rw [h1]
  dsimp only
  cases hts : parseApacheTimestamp now g.ts with
  | some dt => rfl
  | none =>
    unfold parseApacheTimestamp at hts
    cases hz : strptime_dbY_HMS_z g.ts with
    | some dt2 => rw [hz] at hts; exact Option.noConfusion hts
    | none =>
      rw [hz] at hts
      cases hf : firstToken g.ts with
      | none => rw [hf] at h2; exact Bool.noConfusion h2
      | some tok => rw [hf] at hts; exact Option.noConfusion hts

/-- C7 witness: a matched line with an unparseable but non-blank
timestamp field parses successfully (with the wall-clock fallback). -/
theorem C7_timestamp_leniency_witness :
    (parse_apache_log_line ⟨2030, 1, 2, 3, 4, 5, none⟩
        "1.2.3.4 - - [garbage] \"GET / HTTP/1.1\" 200 512 \"-\" \"M\"").isSome =
      true :=
  C7_timestamp_leniency ⟨2030, 1, 2, 3, 4, 5, none⟩
    "1.2.3.4 - - [garbage] \"GET / HTTP/1.1\" 200 512 \"-\" \"M\""
    ⟨"1.2.3.4", "garbage", "GET / HTTP/1.1", "200", "512", "-", "M"⟩ rfl rfl

theorem pjr_none_iff (now : DateTime) (fields : List (String × JsonVal))
    (line : String) :
    (parse_json_record now fields line = none ↔
      ∀ s : String, dictGetD fields "time" (.str "") = .str s → s = "") := by
  unfold parse_json_record
  cases htv : dictGetD fields "time" (.str "") with
  | str s =>
    by_cases hs : s = ""
    · subst hs
      simp only [htv]
      constructor
      · intro _ s2 hs2
        exact (JsonVal.str.inj hs2).symm
      · intro _
        simp [pyTruthy]
    · simp only [htv]
      constructor
      · intro h
        simp [pyTruthy, hs] at h
      · intro h
        exact absurd (h s rfl) hs
  | null =>
    simp only [htv]
    constructor
    · intro _ s2 hs2
      exact JsonVal.noConfusion hs2
    · intro _
      simp
  | bool b =>
    simp only [htv]
    constructor
    · intro _ s2 hs2
      exact JsonVal.noConfusion hs2
    · intro _
      simp
  | num t =>
    simp only [htv]
    constructor
    · intro _ s2 hs2
      exact JsonVal.noConfusion hs2
    · intro _
      simp
  | arr es =>
    simp only [htv]
    constructor
    · intro _ s2 hs2
      exact JsonVal.noConfusion hs2
    · intro _
      simp
  | obj fs =>
    simp only [htv]
    constructor
    · intro _ s2 hs2
      exact JsonVal.noConfusion hs2
    · intro _
      simp

/-- C1 counterexample: a JSON line whose time field is a nonempty string
matching none of the four accepted formats is NOT rejected: the loop
leaves dt as None and the code substitutes the current wall clock
(dt = datetime.now()), so a full record is returned.  The claim says the
record is rejected under a strict policy; only a missing or falsy time
is. -/
theorem C1_counterexample :
    parse_log_to_dict ⟨2030, 1, 2, 3, 4, 5, none⟩
        "\x7b\"time\": \"garbage\"\x7d" =
      some
        { timestamp := ⟨2030, 1, 2, 3, 4, 5, none⟩
          ip := .str "-"
          method := .str "-"
          path := .str "-"
          version := .str "-"
          status_code := 0
          size := 0
          referer := .str "-"
          user_agent := .str "-"
          raw_line := "\x7b\"time\": \"garbage\"\x7d" } := rfl

/-- C1 amended: for a line whose extracted JSON object is truthy, the
record is rejected if and only if the time value is not a nonempty
string - that is, exactly when time is missing, falsy (empty string,
zero, null, false, empty containers), or a truthy non-string (TypeError
in strptime).  A nonempty string matching none of the four formats is
accepted with the wall-clock fallback, as the counterexample shows. -/
theorem C1_time_policy (now : DateTime) (line : String)
    (fields : List (String × JsonVal))
    (h1 : extract_json_block line = some (.obj fields))
    (h2 : pyTruthy (.obj fields) = true) :
    (parse_log_to_dict now line = none ↔
      ∀ s : String, dictGetD fields "time" (.str "") = .str s → s = "") := by
  unfold parse_log_to_dict
  rw [h1]
  dsimp only
  rw [h2]
  simp only [if_true]
  exact pjr_none_iff now fields line

/-- C1 witness: a truthy JSON object with no time field is rejected. -/
theorem C1_time_policy_witness :
    parse_log_to_dict ⟨2030, 1, 2, 3, 4, 5, none⟩ "\x7b\"a\": 1\x7d" = none :=
  (C1_time_policy ⟨2030, 1, 2, 3, 4, 5, none⟩ "\x7b\"a\": 1\x7d"
      [("a", JsonVal.num "1")] rfl rfl).mpr
    (fun _ hs => (JsonVal.str.inj hs).symm)

/-- C9: once a truthy JSON object has been extracted from a line, the
result of the JSON branch is final - if that branch rejects the record,
parse_log_to_dict returns None without attempting the Apache parser. -/
theorem C9_json_short_circuit (now : DateTime) (line : String)
    (fields : List (String × JsonVal))
    (h1 : extract_json_block line = some (.obj fields))
    (h2 : pyTruthy (.obj fields) = true)
    (h3 : parse_json_record now fields line = none) :
    parse_log_to_dict now line = none := by
  unfold parse_log_to_dict
  rw [h1]
  dsimp only
  rw [h2]
  simp only [if_true]
  exact h3

/-- C9 witness: this line ends in a truthy JSON object whose time field
is empty, and it also matches the Apache pattern; the dispatcher still
returns None - the Apache parser is never consulted. -/
theorem C9_json_short_circuit_witness :
    parse_log_to_dict ⟨2030, 1, 2, 3, 4, 5, none⟩
        "1.2.3.4 - - [26/May/2025:00:01:08 +0000] \"GET /x HTTP/1.1\" 200 512 \"-\" \"M\" \x7b\"time\": \"\"\x7d" =
        none ∧
      (parse_apache_log_line ⟨2030, 1, 2, 3, 4, 5, none⟩
          "1.2.3.4 - - [26/May/2025:00:01:08 +0000] \"GET /x HTTP/1.1\" 200 512 \"-\" \"M\" \x7b\"time\": \"\"\x7d").isSome =
        true :=
  ⟨C9_json_short_circuit ⟨2030, 1, 2, 3, 4, 5, none⟩
      "1.2.3.4 - - [26/May/2025:00:01:08 +0000] \"GET /x HTTP/1.1\" 200 512 \"-\" \"M\" \x7b\"time\": \"\"\x7d"
      [("time", JsonVal.str "")] rfl rfl rfl,
    rfl⟩

theorem create_sessions_eq (df : List SRow) (m : Int) (h : df ≠ []) :
    create_sessions df m =
      (sessRun (60 * m) [] (List.insertionSort sessionLE df)).map
        (fun p => (p.1, p.1.ip ++ "_" ++ natRepr p.2)) := by
  unfold create_sessions
  cases df with
  | nil => exact absurd rfl h
  | cons r rs => rfl

/-- C3: in the sorted table, a row opens a new session exactly when it
is the first row of its ip or its gap to the previous row of the same ip
exceeds the timeout: two adjacent same-ip rows of the sorted order share
their session_id iff the gap is within 60*m seconds (first conjunct),
the first row of an ip always gets session counter 1 (second conjunct);
and the two 30-minute scenarios behave as claimed: gaps of 45 and 20
minutes give two sessions and one session with pageviews 2 and duration
20 minutes respectively. -/
theorem C3_session_boundaries :
    (∀ (df : List SRow) (m : Int) (pre post : List SRow) (a b : SRow),
        List.insertionSort sessionLE df = pre ++ a :: b :: post →
        b.ip = a.ip →
        (((create_sessions df m)[pre.length + 1]?).map Prod.snd =
            ((create_sessions df m)[pre.length]?).map Prod.snd ↔
          b.timestamp - a.timestamp ≤ 60 * m)) ∧
    (∀ (df : List SRow) (m : Int) (pre post : List SRow) (a : SRow),
        List.insertionSort sessionLE df = pre ++ a :: post →
        (∀ x ∈ pre, x.ip ≠ a.ip) →
        (create_sessions df m)[pre.length]? =
          some (a, a.ip ++ "_" ++ natRepr 1)) ∧
    create_sessions [⟨"1.1.1.1", 36000⟩, ⟨"1.1.1.1", 38700⟩] 30 =
      [(⟨"1.1.1.1", 36000⟩, "1.1.1.1_1"),
       (⟨"1.1.1.1", 38700⟩, "1.1.1.1_2")] ∧
    (get_session_stats
        (create_sessions [⟨"1.1.1.1", 36000⟩, ⟨"1.1.1.1", 38700⟩] 30)).total_sessions =
      2 ∧
    create_sessions [⟨"1.1.1.1", 36000⟩, ⟨"1.1.1.1", 37200⟩] 30 =
      [(⟨"1.1.1.1", 36000⟩, "1.1.1.1_1"),
       (⟨"1.1.1.1", 37200⟩, "1.1.1.1_1")] ∧
    (statFor
        (create_sessions [⟨"1.1.1.1", 36000⟩, ⟨"1.1.1.1", 37200⟩] 30)
        "1.1.1.1_1").pageviews = 2 ∧
    (statFor
        (create_sessions [⟨"1.1.1.1", 36000⟩, ⟨"1.1.1.1", 37200⟩] 30)
        "1.1.1.1_1").session_duration = 20 := by
  refine ⟨?adj, ?first, by decide, by decide, by decide, by decide,
    by rw [show (20 : ℚ) = ((1200 : Int) : ℚ) / 60 by norm_num]; rfl⟩
  case adj =>
    intro df m pre post a b hsort hip
    have hne : df ≠ [] := by
      intro he
      subst he
      have hlen := congrArg List.length hsort
      simp at hlen
      omega
    rw [create_sessions_eq df m hne, hsort, sessRun_append, List.map_append]
    have hA : ((sessRun (60 * m) [] pre).map
        (fun p => (p.1, p.1.ip ++ "_" ++ natRepr p.2))).length = pre.length := by
      rw [List.length_map, sessRun_length]
    rw [List.getElem?_append_right (by omega), List.getElem?_append_right (by omega)]
    rw [hA]
    have hidx1 : pre.length + 1 - pre.length = 1 := by omega
    have hidx0 : pre.length - pre.length = 0 := by omega
    rw [hidx1, hidx0]
    simp only [sessRun, List.map, List.getElem?_cons_succ, List.getElem?_cons_zero]
    rw [Option.map_some', Option.map_some']
    have hcb : nextCounter (60 * m)
        (assocUpdate (stateAfter (60 * m) [] pre) a.ip
          (a.timestamp,
            nextCounter (60 * m) (stateAfter (60 * m) [] pre) a)) b =
        if b.timestamp - a.timestamp > 60 * m
        then nextCounter (60 * m) (stateAfter (60 * m) [] pre) a + 1
        else nextCounter (60 * m) (stateAfter (60 * m) [] pre) a := by
      unfold nextCounter
      rw [hip, assocFind_update_self]
    rw [hcb, hip]
    rw [Option.some.injEq, sid_eq_iff]
    by_cases hgt : b.timestamp - a.timestamp > 60 * m
    · rw [if_pos hgt]
      constructor
      · intro h
        omega
      · intro h
        omega
    · rw [if_neg hgt]
      constructor
      · intro _
        omega
      · intro _
        rfl
  case first =>
    intro df m pre post a hsort hfirst
    have hne : df ≠ [] := by
      intro he
      subst he
      have hlen := congrArg List.length hsort
      simp at hlen
      omega
    rw [create_sessions_eq df m hne, hsort, sessRun_append, List.map_append]
    have hA : ((sessRun (60 * m) [] pre).map
        (fun p => (p.1, p.1.ip ++ "_" ++ natRepr p.2))).length = pre.length := by
      rw [List.length_map, sessRun_length]
    rw [List.getElem?_append_right (by omega), hA]
    have hidx0 : pre.length - pre.length = 0 := by omega
    rw [hidx0]
    have hca : nextCounter (60 * m) (stateAfter (60 * m) [] pre) a = 1 := by
      unfold nextCounter
      rw [stateAfter_find_none (60 * m) pre [] a.ip rfl hfirst]
    simp only [sessRun, List.map, List.getElem?_cons_zero]
    rw [hca]

/-- C3 witness: the adjacency conjunct applied to a concrete two-row
table, with both hypotheses discharged by computation. -/
theorem C3_session_boundaries_witness :
    (((create_sessions [⟨"z", 0⟩, ⟨"z", 3600⟩] 30)[1]?).map Prod.snd =
        ((create_sessions [⟨"z", 0⟩, ⟨"z", 3600⟩] 30)[0]?).map Prod.snd ↔
      (3600 : Int) - 0 ≤ 60 * 30) :=
  C3_session_boundaries.1 [⟨"z", 0⟩, ⟨"z", 3600⟩] 30 [] []
    ⟨"z", 0⟩ ⟨"z", 3600⟩ rfl rfl

theorem statFor_pageviews (out : List (SRow × String)) (sid : String) :
    (statFor out sid).pageviews =
      (out.filter (fun p => p.2 = sid)).length := by
  unfold statFor
  cases hm : (out.filter (fun p => p.2 = sid)).map Prod.fst with
  | nil =>
    have h2 := congrArg List.length hm
    simp only [List.length_map, List.length_nil] at h2
    simpa using h2.symm
  | cons r rs =>
    have h2 := congrArg List.length hm
    simp only [List.length_map, List.length_cons] at h2
    simpa using h2.symm

/-- C4: sessions partition the table - create_sessions assigns every
row exactly one session_id (the output has one entry per input row), and
the pageview counts of get_session_stats sum to the number of rows. -/
theorem C4_sessions_partition (df : List SRow) (m : Int) (h : df ≠ []) :
    ((session_details (create_sessions df m)).map
        SessionStat.pageviews).sum = df.length ∧
      (create_sessions df m).length = df.length := by
  have hlen : (create_sessions df m).length = df.length := by
    rw [create_sessions_eq df m h, List.length_map, sessRun_length]
    exact (List.perm_insertionSort sessionLE df).length_eq
  refine ⟨?_, hlen⟩
  unfold session_details
  set out := create_sessions df m with hout
  have key : ∀ sid : String,
      (statFor out sid).pageviews = (out.map Prod.snd).count sid := by
    intro sid
    rw [statFor_pageviews]
    have h1 : (out.filter (fun p => p.2 = sid)).length =
        out.countP (fun p => decide (p.2 = sid)) :=
      (List.countP_eq_length_filter _ _).symm
    rw [h1]
    have h2 : (out.map Prod.snd).count sid =
        (out.map Prod.snd).countP (fun x => x == sid) := rfl
    rw [h2, List.countP_map]
    apply List.countP_congr
    intro p _
    by_cases hp : p.2 = sid
    · simp [hp]
    · simp [hp]
  rw [List.map_map]
  have hMapEq :
      (List.insertionSort (fun a b : String => strLeB a b = true)
          (out.map Prod.snd).dedup).map
        (SessionStat.pageviews ∘ statFor out) =
      (List.insertionSort (fun a b : String => strLeB a b = true)
          (out.map Prod.snd).dedup).map
        (fun sid => (out.map Prod.snd).count sid) := by
    apply List.map_congr_left
    intro sid _
    exact key sid
  rw [hMapEq]
  have hperm :
      ((List.insertionSort (fun a b : String => strLeB a b = true)
          (out.map Prod.snd).dedup).map
        (fun sid => (out.map Prod.snd).count sid)).Perm
      ((out.map Prod.snd).dedup.map
        (fun sid => (out.map Prod.snd).count sid)) :=
    (List.perm_insertionSort _ _).map _
  rw [hperm.sum_eq, List.sum_map_count_dedup_eq_length, List.length_map]
  exact hlen

/-- C4 witness: a concrete three-row table with two ips. -/
theorem C4_sessions_partition_witness :
    ((session_details
          (create_sessions [⟨"a", 5⟩, ⟨"b", 9⟩, ⟨"a", 99999⟩] 7)).map
        SessionStat.pageviews).sum = 3 ∧
      (create_sessions [⟨"a", 5⟩, ⟨"b", 9⟩, ⟨"a", 99999⟩] 7).length = 3 :=
  C4_sessions_partition [⟨"a", 5⟩, ⟨"b", 9⟩, ⟨"a", 99999⟩] 7 (by simp)

/-- C5: create_sessions is idempotent - applying it again (with the same
timeout) to the rows of its own output reproduces the same session_id
assignment for every row, because the output rows are already sorted and
the stable sort leaves them fixed. -/
theorem C5_create_sessions_idempotent (df : List SRow) (m : Int) :
    create_sessions ((create_sessions df m).map Prod.fst) m =
      create_sessions df m := by
  cases df with
  | nil => rfl
  | cons r rs =>
    have hne : (r :: rs : List SRow) ≠ [] := by simp
    have hmapfst : (create_sessions (r :: rs) m).map Prod.fst =
        List.insertionSort sessionLE (r :: rs) := by
      rw [create_sessions_eq _ _ hne, List.map_map]
      have hcomp : (Prod.fst ∘ fun p : SRow × Nat =>
          (p.1, p.1.ip ++ "_" ++ natRepr p.2)) = Prod.fst := rfl
      rw [hcomp, sessRun_map_fst]
    rw [hmapfst]
    have hsne : List.insertionSort sessionLE (r :: rs) ≠ [] := by
      intro he
      have hlen := congrArg List.length he
      rw [(List.perm_insertionSort sessionLE (r :: rs)).length_eq] at hlen
      simp at hlen
    rw [create_sessions_eq _ _ hsne, create_sessions_eq _ _ hne]
    rw [List.Sorted.insertionSort_eq
      (List.sorted_insertionSort sessionLE (r :: rs))]
